import Mathlib

/-!
Shallow embedding of the Excel comparator application (`src/app.py`):
cell-value normalisation (`clean_date`, `clean_number`), the typed
comparison predicate (`compare_values`), the row-matching loop run by the
"Run Comparison" button, and the result-flattening step, together with
theorems about these definitions.

Modelling conventions:
* Python floats are modelled as rationals (`ℚ`); every numeric literal
  occurring in the program and in the checked inputs is exactly
  representable, so no rounding behaviour is lost on those inputs.
* Python `datetime.date` values are modelled by their proleptic Gregorian
  ordinal (`date.toordinal`), an integer; `timedelta(days = 1)` becomes
  `+ 1`.
* The missing-value markers (`None`, float `NaN`, pandas `NaT`) are
  conflated into one constructor `Val.null`; `pd.isna` recognises exactly
  these.
* Fallible Python operations are embedded in `Except PyErr`; a `try`/
  `except` block becomes a `match` on the `Except` value.
-/

/-- Python exception kinds that the embedded fragments can produce. -/
inductive PyErr where
  | keyError
  | valueError
  | typeError
deriving DecidableEq, Repr

/-- A Python cell value as the app sees one: `null` is the missing-value
marker (`None` / `NaN` / `NaT`), `str` a string, `num` a float (modelled
as a rational), `date` a `datetime.date` (modelled as its proleptic
Gregorian ordinal). -/
inductive Val where
  | null
  | str (s : String)
  | num (q : ℚ)
  | date (d : ℤ)
deriving DecidableEq, Repr

/-- `pd.isna` on a scalar cell value. -/
def isna : Val → Bool
  | .null => true
  | _ => false

/-- ASCII whitespace stripped by Python `str.strip()` (the Unicode-only
whitespace code points are not exercised by any claim). -/
def isPySpace (c : Char) : Bool :=
  c == ' ' || c == '\t' || c == '\n' || c == '\r' || c == '\x0b' || c == '\x0c'

/-- Python `str.strip()`: drop leading and trailing whitespace. -/
def pyStrip (s : String) : String :=
  String.mk (((s.data.dropWhile isPySpace).reverse.dropWhile isPySpace).reverse)

/-- Lower-case one character, as Python `str.lower()` does on ASCII (the
claims only exercise ASCII data). -/
def pyLowerChar (c : Char) : Char :=
  if 65 ≤ c.toNat ∧ c.toNat ≤ 90 then Char.ofNat (c.toNat + 32) else c

/-- Python `str.lower()`. -/
def pyLower (s : String) : String := String.mk (s.data.map pyLowerChar)

/-- Python `str()` of a cell value.  Only the `str` branch is reached by
the statements proved below; the renderings of floats and dates are
simple faithful-enough stand-ins for Python's `repr`-style formatting and
are never evaluated inside any claim's verdict. -/
def pyStr : Val → String
  | .null => "nan"
  | .str s => s
  | .num q => if q.den = 1 then toString q.num ++ ".0" else toString q
  | .date d => toString d

/-- Numeric value of a list of decimal digit characters. -/
def natOfDigits (l : List Char) : ℕ := l.foldl (fun n c => 10 * n + (c.toNat - 48)) 0

/-- Exact rational value of a parsed float literal: integer digits `ip`,
fractional digits `fp`, decimal exponent `e`. -/
def ratFromParts (ip fp : List Char) (e : ℤ) : ℚ :=
  if 0 ≤ e - (fp.length : ℤ) then
    (natOfDigits (ip ++ fp) : ℚ) * (10 : ℚ) ^ (e - (fp.length : ℤ)).toNat
  else
    (natOfDigits (ip ++ fp) : ℚ) / (10 : ℚ) ^ ((fp.length : ℤ) - e).toNat

/-- Recogniser of the decimal-literal grammar of Python `float(string)`:
`[+-]? (digits [. digits*] | . digits) ([eE] [+-]? digits)?`, returning
the sign (`true` = nonnegative), the integer digits, the fraction digits
and the decimal exponent.  The special literals `inf`/`nan` and
digit-group underscores are outside the modelled fragment; no claim
depends on them. -/
def parseFloatParts (s : String) : Option (Bool × List Char × List Char × ℤ) :=
  let cs := s.data
  let p1 : Bool × List Char :=
    match cs with
    | '+' :: r => (true, r)
    | '-' :: r => (false, r)
    | r => (true, r)
  let ip := p1.2.takeWhile Char.isDigit
  let r1 := p1.2.dropWhile Char.isDigit
  let p2 : List Char × List Char :=
    match r1 with
    | '.' :: r => (r.takeWhile Char.isDigit, r.dropWhile Char.isDigit)
    | r => ([], r)
  if ip.isEmpty && p2.1.isEmpty then none
  else
    match p2.2 with
    | [] => some (p1.1, ip, p2.1, 0)
    | e :: r3 =>
      if e == 'e' || e == 'E' then
        let p3 : Bool × List Char :=
          match r3 with
          | '+' :: r => (true, r)
          | '-' :: r => (false, r)
          | r => (true, r)
        let ed := p3.2.takeWhile Char.isDigit
        let r5 := p3.2.dropWhile Char.isDigit
        if ed.isEmpty || !r5.isEmpty then none
        else some (p1.1, ip, p2.1, (if p3.1 then 1 else -1) * (natOfDigits ed : ℤ))
      else none

/-- Rational value of one parsed float. -/
def partsVal (sg : Bool) (ip fp : List Char) (e : ℤ) : ℚ :=
  (if sg then 1 else -1) * ratFromParts ip fp e

/-- Python `float(string)`: parse the decimal-literal grammar and take its
exact rational value; `none` exactly when `float()` raises `ValueError`
on this grammar. -/
def parseFloat (s : String) : Option ℚ :=
  (parseFloatParts s).map fun p => partsVal p.1 p.2.1 p.2.2.1 p.2.2.2

/-- Python `float(string)` with its `ValueError` made explicit. -/
def pyFloatE (s : String) : Except PyErr ℚ :=
  match parseFloat s with
  | some q => .ok q
  | none => .error .valueError

/-- Python `str.replace(",", "")`: with a one-character pattern and an
empty replacement this is exactly the removal of every comma. -/
def stripCommas (s : String) : String :=
  String.mk (s.data.filter (fun c => !(c == ',')))

/-- Body of the `try` block of `clean_number`:
`float(str(val).replace(",", "").strip())`. -/
def clean_number_body (v : Val) : Except PyErr Val :=
  (pyFloatE (pyStrip (stripCommas (pyStr v)))).map Val.num

/-- `clean_number` from `src/app.py`: `None` for a missing value, else the
`try` body with any exception caught and turned into `None`. -/
def clean_number (v : Val) : Val :=
  if isna v then Val.null
  else
    match clean_number_body v with
    | .ok r => r
    | .error _ => Val.null

/-- Gregorian leap-year test. -/
def isLeap (y : ℕ) : Bool := (y % 4 == 0 && !(y % 100 == 0)) || y % 400 == 0

/-- Days in a month of the proleptic Gregorian calendar. -/
def daysInMonth (y m : ℕ) : ℕ :=
  match m with
  | 1 => 31 | 2 => if isLeap y then 29 else 28 | 3 => 31 | 4 => 30
  | 5 => 31 | 6 => 30 | 7 => 31 | 8 => 31 | 9 => 30 | 10 => 31
  | 11 => 30 | 12 => 31 | _ => 0

/-- Days of year `y` that precede month `m`. -/
def daysBeforeMonth (y m : ℕ) : ℕ :=
  (List.range (m - 1)).foldl (fun acc k => acc + daysInMonth y (k + 1)) 0

/-- `datetime.date(y, m, d).toordinal()`: the proleptic Gregorian ordinal
used as our model of a Python date value. -/
def toOrdinal (y m d : ℕ) : ℤ :=
  ((365 * (y - 1) + (y - 1) / 4 + (y - 1) / 400 - (y - 1) / 100
    + daysBeforeMonth y m + d : ℕ) : ℤ)

/-- Nonempty all-digit string. -/
def digitsOnly (s : String) : Bool := !s.data.isEmpty && s.data.all Char.isDigit

/-- Numeric value of an all-digit string. -/
def natOfStr (s : String) : ℕ := natOfDigits s.data

/-- Well-formed `H:M:S` time-of-day component (discarded after
validation, as `pd.to_datetime(...).date()` truncates to the day). -/
def validTime (t : String) : Bool :=
  match t.splitOn ":" with
  | [h, m, sec] =>
    digitsOnly h && digitsOnly m && digitsOnly sec
      && decide (natOfStr h < 24) && decide (natOfStr m < 60) && decide (natOfStr sec < 60)
  | _ => false

/-- Calendar part of the date parser: `Y-M-D` when the first component has
four digits, otherwise month-first (pandas' `dayfirst=False` default) with
the dateutil-style swap when the month position exceeds 12. -/
def parseDateOnly (ds : String) : Option ℤ :=
  let parts := if (ds.splitOn "-").length == 3 then ds.splitOn "-" else ds.splitOn "/"
  match parts with
  | [a, b, c] =>
    if digitsOnly a && digitsOnly b && digitsOnly c then
      let t : ℕ × ℕ × ℕ :=
        if a.length == 4 then (natOfStr a, natOfStr b, natOfStr c)
        else (natOfStr c, natOfStr a, natOfStr b)
      let md : ℕ × ℕ := if 12 < t.2.1 then (t.2.2, t.2.1) else (t.2.1, t.2.2)
      if decide (1 ≤ md.1) && decide (md.1 ≤ 12) && decide (1 ≤ md.2)
          && decide (md.2 ≤ daysInMonth t.1 md.1) && decide (1 ≤ t.1) then
        some (toOrdinal t.1 md.1 md.2)
      else none
    else none
  | _ => none

/-- `pd.to_datetime(string, errors="coerce")` truncated to a calendar
date: models the date formats the source app documents
(`02-09-2025`, `9/2/2025 22:41:26`, ISO `2025-09-02`).  `errors="coerce"`
means an unparseable string yields the missing marker, never an
exception; the claims below depend only on that totality, not on the
exact format coverage. -/
def parseDate (s : String) : Option ℤ :=
  match (pyStrip s).splitOn " " with
  | [d] => parseDateOnly d
  | [d, t] => if validTime t then parseDateOnly d else none
  | _ => none

/-- Body of the `try` block of `clean_date`:
`pd.to_datetime(str(val), errors="coerce").date()`.  Because of
`errors="coerce"` this body itself never raises: an unparseable input
becomes `NaT`, whose date projection is again the missing marker. -/
def clean_date_body (v : Val) : Except PyErr Val :=
  .ok (match parseDate (pyStr v) with
    | none => Val.null
    | some d => Val.date d)

/-- `clean_date` from `src/app.py`: `None` for a missing value, else the
`try` body with any exception caught and turned into `None`. -/
def clean_date (v : Val) : Val :=
  if isna v then Val.null
  else
    match clean_date_body v with
    | .ok r => r
    | .error _ => Val.null

/-- Python `==` between two non-missing cell values: equal-typed values
compare componentwise, cross-typed comparisons are `False`.  (`compare_values`
only reaches this after its `pd.isna` guard.) -/
def pyEq : Val → Val → Bool
  | .str a, .str b => a == b
  | .num a, .num b => a == b
  | .date a, .date b => a == b
  | _, _ => false

/-- Length of the longest common initial run of two character lists. -/
def runLen : List Char → List Char → ℕ
  | a :: as, b :: bs => if a = b then runLen as bs + 1 else 0
  | _, _ => 0

/-- Longest common contiguous block of two character lists, as
`(start in s, start in t, length)`. -/
def bestBlock (s t : List Char) : ℕ × ℕ × ℕ :=
  (List.range (s.length + 1)).foldl (fun acc i =>
    (List.range (t.length + 1)).foldl (fun acc2 j =>
      let l := runLen (s.drop i) (t.drop j)
      if acc2.2.2 < l then (i, j, l) else acc2) acc) (0, 0, 0)

/-- Total size of the recursive matching-block decomposition (difflib
style: longest common block, then recurse on both sides), with explicit
fuel for termination. -/
def matchTotal : ℕ → List Char → List Char → ℕ
  | 0, _, _ => 0
  | fuel + 1, s, t =>
    let b := bestBlock s t
    if b.2.2 == 0 then 0
    else
      matchTotal fuel (s.take b.1) (t.take b.2.1) + b.2.2
        + matchTotal fuel (s.drop (b.1 + b.2.2)) (t.drop (b.2.1 + b.2.2))

/-- difflib-style similarity of two character lists on a 0–100 scale. -/
def simScore (s t : List Char) : ℕ :=
  let tot := s.length + t.length
  if tot == 0 then 100 else (200 * matchTotal tot s t + tot / 2) / tot

/-- `fuzz.partial_ratio`: best similarity of the shorter string against
the same-length contiguous windows of the longer one (spec §4.2 allows
any algorithm reproducing this metric; no claim's verdict evaluates it). -/
def fuzzScore (s t : String) : ℕ :=
  let p := if s.length ≤ t.length then (s.data, t.data) else (t.data, s.data)
  if p.1.length == 0 then 100
  else
    ((List.range (p.2.length - p.1.length + 1)).map
      (fun i => simScore p.1 ((p.2.drop i).take p.1.length))).foldl max 0

/-- `compare_values(v1, v2, col_type, fuzzy)` from `src/app.py`, with the
Python `TypeError`s of the `Date`/`Number` branches made explicit:
`v1 == v2 or v1 == v2 + timedelta(days=1) or v1 == v2 - timedelta(days=1)`
raises when the addition is attempted on a non-date `v2`, and
`abs(v1 - v2) < 1e-6` raises unless both operands are numbers. -/
def compareE (v1 v2 : Val) (ct : String) (fz : Bool) : Except PyErr Bool :=
  if isna v1 || isna v2 then .ok false
  else if ct == "Date" then
    if pyEq v1 v2 then .ok true
    else
      match v2 with
      | .date b => .ok (pyEq v1 (.date (b + 1)) || pyEq v1 (.date (b - 1)))
      | _ => .error .typeError
  else if ct == "Number" then
    match v1, v2 with
    | .num a, .num b => .ok (decide (|a - b| < 1 / 1000000))
    | _, _ => .error .typeError
  else if ct == "Text" then
    if fz then .ok (decide (80 ≤ fuzzScore (pyLower (pyStr v1)) (pyLower (pyStr v2))))
    else .ok (pyLower (pyStrip (pyStr v1)) == pyLower (pyStrip (pyStr v2)))
  else .ok (pyStr v1 == pyStr v2)

/-- One row of a dataset: the mapping from column names to cell values
that a pandas row (`Series`) presents to the loop.  Column names are
unique within a dataset, so an association list is faithful. -/
abbrev Row := List (String × Val)

/-- One entry of `col_map`: Left column, matched Right column, the chosen
comparison type (`"Text"` / `"Number"` / `"Date"` as strings, exactly as
the radio widget supplies them), and the fuzzy flag.  A `ColumnMapping`
is a list of these, in `df1.columns` order. -/
structure Spec where
  leftCol : String
  rightCol : String
  colType : String
  fuzzy : Bool
deriving DecidableEq, Repr

/-- `row[col]` on a pandas row: the cell value, or `KeyError` when the
label is absent. -/
def rowGet (r : Row) (k : String) : Except PyErr Val :=
  match List.lookup k r with
  | some v => .ok v
  | none => .error .keyError

/-- The in-loop normalisation step: `Date` and `Number` cells pass
through `clean_date` / `clean_number`, text stays raw. -/
def normPair (ty : String) (v1 v2 : Val) : Val × Val :=
  if ty == "Date" then (clean_date v1, clean_date v2)
  else if ty == "Number" then (clean_number v1, clean_number v2)
  else (v1, v2)

/-- One column-pair evaluation of the inner loop: fetch both cells
(left first, as the tuple assignment does), normalise, compare. -/
def evalSpec (sp : Spec) (r1 r2 : Row) : Except PyErr Bool :=
  (rowGet r1 sp.leftCol).bind fun v1 =>
  (rowGet r2 sp.rightCol).bind fun v2 =>
  compareE (normPair sp.colType v1 v2).1 (normPair sp.colType v1 v2).2 sp.colType sp.fuzzy

/-- The `comparisons` list built for one (Left row, Right row) pair: every
configured column pair is evaluated, in mapping order, with no
short-circuit (the Python loop appends all results before `all()`). -/
def mapComparisons (r1 r2 : Row) : List Spec → Except PyErr (List Bool)
  | [] => .ok []
  | sp :: rest =>
    (evalSpec sp r1 r2).bind fun b =>
    (mapComparisons r1 r2 rest).bind fun bs =>
    .ok (b :: bs)

/-- `all(comparisons)` for one Right row, as one Except-valued step. -/
def rowFullMatch (specs : List Spec) (r1 r2 : Row) : Except PyErr Bool :=
  (mapComparisons r1 r2 specs).bind fun cs => .ok (cs.all id)

/-- The inner loop over `df2.iterrows()`: scan Right rows in order and
stop at the first one whose comparisons all hold (`break`), returning
`(match_found, best_match)`. -/
def findMatch (specs : List Spec) (r1 : Row) : List Row → Except PyErr (Bool × Option Row)
  | [] => .ok (false, none)
  | r2 :: rest =>
    (mapComparisons r1 r2 specs).bind fun cs =>
    if cs.all id then .ok (true, some r2) else findMatch specs r1 rest

/-- One entry of `results`: the dict
`{"Excel1_Index": i, "Excel1_Data": dict(row1), "Matched": yes/no, "Excel2_Match": dict(best_match) or None}`. -/
structure MatchRecord where
  excel1Index : ℕ
  excel1Data : Row
  matched : String
  excel2Match : Option Row
deriving DecidableEq, Repr

/-- The record appended for one Left row. -/
def mkRecord (i : ℕ) (r1 : Row) (p : Bool × Option Row) : MatchRecord :=
  { excel1Index := i, excel1Data := r1,
    matched := if p.1 then "✅ Yes" else "❌ No",
    excel2Match := p.2 }

/-- The outer loop over `df1.iterrows()` starting at row index `i`. -/
def runAux (specs : List Spec) (right : List Row) : ℕ → List Row → Except PyErr (List MatchRecord)
  | _, [] => .ok []
  | i, r1 :: rest =>
    (findMatch specs r1 right).bind fun p =>
    (runAux specs right (i + 1) rest).bind fun recs =>
    .ok (mkRecord i r1 p :: recs)

/-- The whole "Run Comparison" loop: one pass over Left (a fresh read of
an Excel file carries the positional `RangeIndex`, so `iterrows` yields
indices `0, 1, 2, …`). -/
def runMatch (specs : List Spec) (left right : List Row) : Except PyErr (List MatchRecord) :=
  runAux specs right 0 left

/-- The §3 ColumnMapping invariant: every configured column exists in
every row of the corresponding dataset. -/
def specsValid (specs : List Spec) (left right : List Row) : Prop :=
  ∀ sp ∈ specs,
    (∀ r ∈ left, (List.lookup sp.leftCol r).isSome = true)
    ∧ (∀ r ∈ right, (List.lookup sp.rightCol r).isSome = true)

/-- Python dict assignment `d[k] = v`: overwrite in place when the key is
already present (keeping its insertion position), else append. -/
def dictInsert : List (String × Val) → String → Val → List (String × Val)
  | [], k, v => [(k, v)]
  | (k1, v1) :: rest, k, v =>
    if k1 = k then (k, v) :: rest else (k1, v1) :: dictInsert rest k v

/-- The sequence of dict writes `flat_results` performs for one record:
the index and matched fields, then the `Excel1_`-prefixed Left columns,
then — when `r["Excel2_Match"]` is truthy, i.e. a nonempty dict — the
`Excel2_`-prefixed Right columns. -/
def writes (r : MatchRecord) : List (String × Val) :=
  ("Excel1_Index", Val.num ((r.excel1Index : ℤ) : ℚ)) :: ("Matched", Val.str r.matched) ::
  (r.excel1Data.map (fun kv => ("Excel1_" ++ kv.1, kv.2)) ++
    match r.excel2Match with
    | none => []
    | some r2 => if r2 = [] then [] else r2.map (fun kv => ("Excel2_" ++ kv.1, kv.2)))

/-- The flat dict built for one record: the writes applied in order to an
initially empty dict. -/
def flattenRec (r : MatchRecord) : List (String × Val) :=
  (writes r).foldl (fun d kv => dictInsert d kv.1 kv.2) []

/-- `flat_results`: one flat record per match record, in order. -/
def flat_results (recs : List MatchRecord) : List (List (String × Val)) :=
  recs.map flattenRec

/-- The flat keys one record writes, with multiplicity: a repeated key
means two source fields collide in the flat dict. -/
def writtenKeys (r : MatchRecord) : List String :=
  (writes r).map Prod.fst

/-- Whether an embedded Python step completed without an exception. -/
def exceptOk {α : Type} : Except PyErr α → Bool
  | .ok _ => true
  | .error _ => false

section CoreLemmas

/-- A missing left operand makes `compare_values` return `False`. -/
theorem compareE_null_left (w : Val) (ct : String) (fz : Bool) :
    compareE Val.null w ct fz = Except.ok false := by
  simp [compareE, isna]

/-- A missing right operand makes `compare_values` return `False`. -/
theorem compareE_null_right (v : Val) (ct : String) (fz : Bool) :
    compareE v Val.null ct fz = Except.ok false := by
  simp [compareE, isna]

/-- On two date values the `Date` branch is the ±1-day disjunction. -/
theorem compareE_date_eq (a b : ℤ) (fz : Bool) :
    compareE (Val.date a) (Val.date b) "Date" fz
      = Except.ok (a == b || a == b + 1 || a == b - 1) := by
  by_cases h : a = b
  · subst h; simp [compareE, isna, pyEq]
  · have hb : (a == b) = false := by simp [h]
    simp [compareE, isna, pyEq, hb]

/-- The exact-text branch compares stripped, lower-cased strings. -/
theorem compareE_text_exact (a b : String) :
    compareE (Val.str a) (Val.str b) "Text" false
      = Except.ok (pyLower (pyStrip a) == pyLower (pyStrip b)) := rfl

/-- `clean_number` yields the missing marker or a number. -/
theorem clean_number_shape (v : Val) :
    clean_number v = Val.null ∨ ∃ q, clean_number v = Val.num q := by
  unfold clean_number clean_number_body pyFloatE
  by_cases hv : isna v = true
  · simp [hv]
  · rcases h : parseFloat (pyStrip (stripCommas (pyStr v))) with _ | q
    · simp [hv, h, Except.map]
    · exact Or.inr ⟨q, by simp [hv, h, Except.map]⟩

/-- `clean_date` yields the missing marker or a date. -/
theorem clean_date_shape (v : Val) :
    clean_date v = Val.null ∨ ∃ d, clean_date v = Val.date d := by
  unfold clean_date clean_date_body
  by_cases hv : isna v = true
  · simp [hv]
  · rcases h : parseDate (pyStr v) with _ | d
    · simp [hv, h]
    · exact Or.inr ⟨d, by simp [hv, h]⟩

end CoreLemmas

/-- C2: `compare_values` returns `False` whenever either operand is
missing — for every compareType and fuzzy flag, including two missing
operands — and a missing value stays missing through both normalizers,
so the rule applies pre- and post-normalization. -/
theorem compare_missing_never_matches :
    (∀ (v : Val) (ct : String) (fz : Bool),
        compareE Val.null v ct fz = Except.ok false
      ∧ compareE v Val.null ct fz = Except.ok false)
    ∧ clean_date Val.null = Val.null ∧ clean_number Val.null = Val.null :=
  ⟨fun v ct fz => ⟨compareE_null_left v ct fz, compareE_null_right v ct fz⟩, rfl, rfl⟩

/-- C4: on non-missing dates, `compare_values(_, _, "Date")` is true
exactly for equal dates or dates one day apart, and on the concrete
inputs 2025-09-02/2025-09-03 (one day apart, true) and
2025-09-02/2025-09-04 (two days apart, false). -/
theorem compare_date_plus_minus_one_day :
    (∀ (a b : ℤ) (fz : Bool),
        compareE (Val.date a) (Val.date b) "Date" fz
          = Except.ok (a == b || a == b + 1 || a == b - 1))
    ∧ compareE (Val.date (toOrdinal 2025 9 2)) (Val.date (toOrdinal 2025 9 3)) "Date" false
        = Except.ok true
    ∧ compareE (Val.date (toOrdinal 2025 9 2)) (Val.date (toOrdinal 2025 9 4)) "Date" false
        = Except.ok false :=
  ⟨compareE_date_eq, rfl, rfl⟩

/-- C5: `clean_number` removes every comma from the string form, strips
surrounding whitespace, and parses the result as a float; an input whose
comma-stripped form fails the float parse normalizes to the missing
marker; consequently `"500,00"` normalizes to `50000` and not to `500`. -/
theorem clean_number_comma_strip :
    (∀ s : String, parseFloat (pyStrip (stripCommas s)) = none →
        clean_number (Val.str s) = Val.null)
    ∧ (∀ (s : String) (q : ℚ), parseFloat (pyStrip (stripCommas s)) = some q →
        clean_number (Val.str s) = Val.num q)
    ∧ clean_number (Val.str "500,00") = Val.num 50000
    ∧ clean_number (Val.str "500,00") ≠ Val.num 500 := by
  have h1 : parseFloatParts (pyStrip (stripCommas "500,00"))
      = some (true, ['5', '0', '0', '0', '0'], [], 0) := by decide
  have h3 : natOfDigits ['5', '0', '0', '0', '0'] = 50000 := by decide
  have h2 : parseFloat (pyStrip (stripCommas "500,00")) = some 50000 := by
    simp only [parseFloat, h1, Option.map_some']
    simp [partsVal, ratFromParts, h3]
  refine ⟨?_, ?_, ?_, ?_⟩
  · intro s h
    simp [clean_number, clean_number_body, isna, pyStr, pyFloatE, h, Except.map]
  · intro s q h
    simp [clean_number, clean_number_body, isna, pyStr, pyFloatE, h, Except.map]
  · simp [clean_number, clean_number_body, isna, pyStr, pyFloatE, h2, Except.map]
  · simp [clean_number, clean_number_body, isna, pyStr, pyFloatE, h2, Except.map]

/-- C5 witness: a concrete unparseable input normalizes to the missing
marker, and a concrete parseable comma-grouped input parses after the
commas are removed. -/
theorem clean_number_comma_strip_witness :
    clean_number (Val.str "abc") = Val.null
    ∧ clean_number (Val.str " 1,234.5 ") = Val.num (2469 / 2) := by
  refine ⟨clean_number_comma_strip.1 "abc" (by decide),
         clean_number_comma_strip.2.1 " 1,234.5 " (2469 / 2) ?_⟩
  have h1 : parseFloatParts (pyStrip (stripCommas " 1,234.5 "))
      = some (true, ['1', '2', '3', '4'], ['5'], 0) := by decide
  have h3 : natOfDigits ['1', '2', '3', '4', '5'] = 12345 := by decide
  simp only [parseFloat, h1, Option.map_some']
  simp [partsVal, ratFromParts, h3]
  norm_num

/-- C6: on non-missing text values with fuzzy off, `compare_values` is
true exactly when the two strings agree after stripping surrounding
whitespace and lower-casing, and in particular `" Alpha "` matches
`"alpha"`. -/
theorem compare_text_exact_trim_casefold :
    (∀ a b : String,
        compareE (Val.str a) (Val.str b) "Text" false
          = Except.ok (pyLower (pyStrip a) == pyLower (pyStrip b)))
    ∧ compareE (Val.str " Alpha ") (Val.str "alpha") "Text" false = Except.ok true :=
  ⟨compareE_text_exact, rfl⟩

section EngineLemmas

/-- Bind on a successful step runs the continuation. -/
theorem okBind {α β : Type} (a : α) (f : α → Except PyErr β) :
    (Except.ok a : Except PyErr α).bind f = f a := rfl

/-- Bind on a raised exception propagates it. -/
theorem errBind {α β : Type} (e : PyErr) (f : α → Except PyErr β) :
    (Except.error e : Except PyErr α).bind f = Except.error e := rfl

/-- A step is exception-free exactly when it has a result. -/
theorem exceptOk_eq_true_iff {α : Type} (x : Except PyErr α) :
    exceptOk x = true ↔ ∃ a, x = Except.ok a := by
  cases x <;> simp [exceptOk]

/-- `compare_values` cannot raise when the column type is neither
`"Date"` nor `"Number"`. -/
theorem compareE_ok_of_other (v1 v2 : Val) (ty : String) (fz : Bool)
    (hd : (ty == "Date") = false) (hn : (ty == "Number") = false) :
    exceptOk (compareE v1 v2 ty fz) = true := by
  unfold compareE
  cases hA : (isna v1 || isna v2)
  · cases hT : (ty == "Text")
    · simp [hA, hd, hn, hT, exceptOk]
    · cases fz <;> simp [hA, hd, hn, hT, exceptOk]
  · simp [hA, exceptOk]

/-- After the in-loop normalisation, `compare_values` never raises: the
`Date`/`Number` branches only ever see the missing marker or a value of
the right type. -/
theorem compare_normPair_ok (ty : String) (v1 v2 : Val) (fz : Bool) :
    exceptOk (compareE (normPair ty v1 v2).1 (normPair ty v1 v2).2 ty fz) = true := by
  by_cases hdate : ty = "Date"
  · subst hdate
    simp only [normPair, beq_self_eq_true, if_true]
    rcases clean_date_shape v1 with h1 | ⟨d1, h1⟩
    · rw [h1, compareE_null_left]; rfl
    · rcases clean_date_shape v2 with h2 | ⟨d2, h2⟩
      · rw [h2, compareE_null_right]; rfl
      · rw [h1, h2, compareE_date_eq]; rfl
  · by_cases hnum : ty = "Number"
    · subst hnum
      simp only [normPair, show (("Number" : String) == "Date") = false from rfl,
        Bool.false_eq_true, if_false, beq_self_eq_true, if_true]
      rcases clean_number_shape v1 with h1 | ⟨q1, h1⟩
      · rw [h1, compareE_null_left]; rfl
      · rcases clean_number_shape v2 with h2 | ⟨q2, h2⟩
        · rw [h2, compareE_null_right]; rfl
        · rw [h1, h2]; rfl
    · have hd : (ty == "Date") = false := by simp [hdate]
      have hn : (ty == "Number") = false := by simp [hnum]
      simp only [normPair, hd, hn, Bool.false_eq_true, if_false]
      exact compareE_ok_of_other v1 v2 ty fz hd hn

/-- One column-pair evaluation succeeds when both configured columns are
present in the two rows. -/
theorem evalSpec_ok (sp : Spec) (r1 r2 : Row)
    (h1 : (List.lookup sp.leftCol r1).isSome = true)
    (h2 : (List.lookup sp.rightCol r2).isSome = true) :
    exceptOk (evalSpec sp r1 r2) = true := by
  obtain ⟨v1, hv1⟩ := Option.isSome_iff_exists.mp h1
  obtain ⟨v2, hv2⟩ := Option.isSome_iff_exists.mp h2
  unfold evalSpec rowGet
  rw [hv1, hv2]
  exact compare_normPair_ok sp.colType v1 v2 sp.fuzzy

/-- The per-pair comparison list succeeds when every pair evaluation
does. -/
theorem mapComparisons_ok (r1 r2 : Row) (specs : List Spec)
    (h : ∀ sp ∈ specs, exceptOk (evalSpec sp r1 r2) = true) :
    exceptOk (mapComparisons r1 r2 specs) = true := by
  induction specs with
  | nil => rfl
  | cons sp rest ih =>
    obtain ⟨b, hb⟩ := (exceptOk_eq_true_iff _).mp (h sp (List.mem_cons_self sp rest))
    obtain ⟨bs, hbs⟩ :=
      (exceptOk_eq_true_iff _).mp (ih fun s hs => h s (List.mem_cons_of_mem sp hs))
    simp [mapComparisons, hb, hbs, okBind, exceptOk]

/-- The inner Right scan succeeds when every per-row comparison list
does. -/
theorem findMatch_ok (specs : List Spec) (r1 : Row) (right : List Row)
    (h : ∀ r2 ∈ right, exceptOk (mapComparisons r1 r2 specs) = true) :
    exceptOk (findMatch specs r1 right) = true := by
  induction right with
  | nil => rfl
  | cons r2 rest ih =>
    obtain ⟨cs, hcs⟩ := (exceptOk_eq_true_iff _).mp (h r2 (List.mem_cons_self r2 rest))
    have ih2 := ih fun r hr => h r (List.mem_cons_of_mem r2 hr)
    cases hall : cs.all id
    · simp only [findMatch, hcs, okBind, hall, Bool.false_eq_true, reduceIte]
      exact ih2
    · simp only [findMatch, hcs, okBind, hall, reduceIte]
      rfl

/-- Shape of the outer loop from start index `i0`: one record per Left
row, in order, carrying consecutive indices and the Left rows
themselves. -/
theorem runAux_shape (specs : List Spec) (right : List Row) (left : List Row)
    (h : ∀ r1 ∈ left, exceptOk (findMatch specs r1 right) = true) :
    ∀ i0 : ℕ, ∃ recs, runAux specs right i0 left = Except.ok recs
      ∧ recs.length = left.length
      ∧ ∀ k, k < left.length → ∃ rec, recs.get? k = some rec
          ∧ rec.excel1Index = i0 + k ∧ left.get? k = some rec.excel1Data := by
  induction left with
  | nil =>
    intro i0
    exact ⟨[], rfl, rfl, fun k hk => absurd hk (by simp)⟩
  | cons r1 rest ih =>
    intro i0
    obtain ⟨p, hp⟩ :=
      (exceptOk_eq_true_iff _).mp (h r1 (List.mem_cons_self r1 rest))
    obtain ⟨recs, hrecs, hlen, hidx⟩ :=
      ih (fun r hr => h r (List.mem_cons_of_mem r1 hr)) (i0 + 1)
    refine ⟨mkRecord i0 r1 p :: recs, ?_, by simp [hlen], ?_⟩
    · simp [runAux, hp, hrecs, okBind]
    · intro k hk
      cases k with
      | zero => exact ⟨mkRecord i0 r1 p, rfl, rfl, rfl⟩
      | succ k =>
        obtain ⟨rec, hg, hi, hdata⟩ := hidx k (by simpa using hk)
        exact ⟨rec, hg, by omega, hdata⟩

end EngineLemmas

/-- C1: for any two datasets and any column mapping satisfying the §3
invariant (each configured column exists in the corresponding dataset),
the run produces exactly one record per Left row, in Left's original
order, the record at position `i` carrying index `i` and the `i`-th Left
row's data. -/
theorem engine_one_record_per_left_row (specs : List Spec) (left right : List Row)
    (h : specsValid specs left right) :
    ∃ recs, runMatch specs left right = Except.ok recs
      ∧ recs.length = left.length
      ∧ ∀ i, i < left.length → ∃ rec, recs.get? i = some rec
          ∧ rec.excel1Index = i ∧ left.get? i = some rec.excel1Data := by
  have hfm : ∀ r1 ∈ left, exceptOk (findMatch specs r1 right) = true := by
    intro r1 hr1
    refine findMatch_ok specs r1 right fun r2 hr2 => ?_
    refine mapComparisons_ok r1 r2 specs fun sp hsp => ?_
    exact evalSpec_ok sp r1 r2 ((h sp hsp).1 r1 hr1) ((h sp hsp).2 r2 hr2)
  obtain ⟨recs, h1, h2, h3⟩ := runAux_shape specs right left hfm 0
  refine ⟨recs, h1, h2, fun i hi => ?_⟩
  obtain ⟨rec, hg, hidx, hdata⟩ := h3 i hi
  exact ⟨rec, hg, by omega, hdata⟩

/-- C1 witness: a concrete valid one-pair mapping over singleton
datasets. -/
theorem engine_one_record_per_left_row_witness :
    ∃ recs, runMatch [⟨"a", "b", "Text", false⟩]
        [[("a", Val.str "x")]] [[("b", Val.str "x")]] = Except.ok recs
      ∧ recs.length = [[("a", Val.str "x")]].length
      ∧ ∀ i, i < [[("a", Val.str "x")]].length → ∃ rec, recs.get? i = some rec
          ∧ rec.excel1Index = i ∧ [[("a", Val.str "x")]].get? i = some rec.excel1Data :=
  engine_one_record_per_left_row [⟨"a", "b", "Text", false⟩]
    [[("a", Val.str "x")]] [[("b", Val.str "x")]] (by unfold specsValid; decide)

/-- Unfolding of one `all(comparisons)` step. -/
theorem rowFullMatch_inv (specs : List Spec) (r1 r2 : Row) (b : Bool)
    (h : rowFullMatch specs r1 r2 = Except.ok b) :
    ∃ cs, mapComparisons r1 r2 specs = Except.ok cs ∧ cs.all id = b := by
  unfold rowFullMatch at h
  cases hm : mapComparisons r1 r2 specs with
  | error e => rw [hm] at h; simp [errBind] at h
  | ok cs => rw [hm, okBind] at h; exact ⟨cs, rfl, by simpa using h⟩

/-- C3: the engine scans Right rows in original order and returns the
first fully-matching one: if row `j` of Right fully matches and every
earlier row fails, the scan returns row `j` — so a later fully-matching
row (such as the one after `j`) is never selected. -/
theorem engine_first_match_wins (specs : List Spec) (r1 : Row) (right : List Row)
    (j : ℕ) (rj : Row) (hj : right.get? j = some rj)
    (hmatch : rowFullMatch specs r1 rj = Except.ok true)
    (hbefore : ∀ k rk, k < j → right.get? k = some rk →
        rowFullMatch specs r1 rk = Except.ok false) :
    findMatch specs r1 right = Except.ok (true, some rj) := by
  induction right generalizing j with
  | nil => simp at hj
  | cons r2 rest ih =>
    cases j with
    | zero =>
      have hr : r2 = rj := by simpa using hj
      subst hr
      obtain ⟨cs, hcs, hall⟩ := rowFullMatch_inv specs r1 r2 true hmatch
      simp only [findMatch, hcs, okBind, hall, reduceIte]
    | succ j =>
      have h0 : rowFullMatch specs r1 r2 = Except.ok false :=
        hbefore 0 r2 (Nat.succ_pos j) rfl
      obtain ⟨cs, hcs, hall⟩ := rowFullMatch_inv specs r1 r2 false h0
      have htail : rest.get? j = some rj := by simpa using hj
      have hb : ∀ k rk, k < j → rest.get? k = some rk →
          rowFullMatch specs r1 rk = Except.ok false := by
        intro k rk hk hg
        exact hbefore (k + 1) rk (Nat.succ_lt_succ hk) (by simpa using hg)
      simp only [findMatch, hcs, okBind, hall, Bool.false_eq_true, reduceIte]
      exact ih j htail hb

/-- C3 witness: Right rows [fails, matches, also matches] — the scan
returns the middle row, not the last one. -/
theorem engine_first_match_wins_witness :
    findMatch [⟨"a", "b", "Text", false⟩] [("a", Val.str "alpha")]
      [[("b", Val.str "zzz")], [("b", Val.str " ALPHA ")], [("b", Val.str "alpha")]]
      = Except.ok (true, some [("b", Val.str " ALPHA ")]) :=
  engine_first_match_wins [⟨"a", "b", "Text", false⟩] [("a", Val.str "alpha")]
    [[("b", Val.str "zzz")], [("b", Val.str " ALPHA ")], [("b", Val.str "alpha")]]
    1 [("b", Val.str " ALPHA ")] rfl rfl
    (by
      intro k rk hk hg
      have hk0 : k = 0 := by omega
      subst hk0
      have hrk : rk = [("b", Val.str "zzz")] := by simpa using hg.symm
      subst hrk
      rfl)

/-- C7 counterexample: with an empty mapping but an empty Right dataset,
the single Left row is recorded as unmatched — not as matched with Right
row 0, which does not exist. -/
theorem empty_mapping_empty_right_counterexample :
    runMatch [] [[("a", Val.str "x")]] []
      = Except.ok [{ excel1Index := 0, excel1Data := [("a", Val.str "x")],
                     matched := "❌ No", excel2Match := none }] := rfl

/-- C7 amended: with an empty mapping and a nonempty Right dataset, the
vacuous conjunction makes the very first Right row match, so every Left
row is recorded as matched with Right row 0. -/
theorem empty_mapping_matches_first_right_row (left : List Row) (r2 : Row) (rrest : List Row) :
    ∃ recs, runMatch [] left (r2 :: rrest) = Except.ok recs
      ∧ recs.length = left.length
      ∧ ∀ rec ∈ recs, rec.matched = "✅ Yes" ∧ rec.excel2Match = some r2 := by
  suffices haux : ∀ (l : List Row) (i0 : ℕ),
      ∃ recs, runAux [] (r2 :: rrest) i0 l = Except.ok recs
        ∧ recs.length = l.length
        ∧ ∀ rec ∈ recs, rec.matched = "✅ Yes" ∧ rec.excel2Match = some r2 by
    exact haux left 0
  intro l
  induction l with
  | nil => intro i0; exact ⟨[], rfl, rfl, by simp⟩
  | cons r1 rest ih =>
    intro i0
    obtain ⟨recs, h1, h2, h3⟩ := ih (i0 + 1)
    refine ⟨mkRecord i0 r1 (true, some r2) :: recs, ?_, by simp [h2], ?_⟩
    · have hf : findMatch [] r1 (r2 :: rrest) = Except.ok (true, some r2) := rfl
      simp [runAux, hf, h1, okBind]
    · intro rec hrec
      rcases List.mem_cons.mp hrec with hh | hh
      · subst hh; exact ⟨rfl, rfl⟩
      · exact h3 rec hh

/-- C8 counterexample: a mapping whose left column `"zzz"` exists in
neither dataset is not rejected up front: with a nonempty Left the run
fails with a `KeyError` raised from inside the scan, and with an empty
Left the run completes normally without ever flagging the bad mapping. -/
theorem missing_column_not_rejected_counterexample :
    runMatch [⟨"zzz", "b", "Text", false⟩] [[("a", Val.num 1)]] [[("b", Val.num 2)]]
        = Except.error PyErr.keyError
    ∧ runMatch [⟨"zzz", "b", "Text", false⟩] [] [[("b", Val.num 2)]] = Except.ok [] :=
  ⟨rfl, rfl⟩

/-- C8 amended: the engine performs no up-front mapping validation — when
a spec's left column is missing from a Left row, the run raises a
`KeyError` at the first cell access during the scan of that row (given
any nonempty Right), while with an empty Left the same invalid mapping is
never detected at all.  (In the application the UI builds the mapping
exclusively from existing column names, so an invalid mapping cannot
reach the engine.) -/
theorem missing_column_fails_during_scan (sp : Spec) (lrow : Row) (lrest : List Row)
    (r2 : Row) (rrest : List Row) (h : List.lookup sp.leftCol lrow = none) :
    runMatch [sp] (lrow :: lrest) (r2 :: rrest) = Except.error PyErr.keyError
    ∧ runMatch [sp] [] (r2 :: rrest) = Except.ok [] := by
  constructor
  · have he : evalSpec sp lrow r2 = Except.error PyErr.keyError := by
      unfold evalSpec rowGet
      rw [h]
      rfl
    have hm : mapComparisons lrow r2 [sp] = Except.error PyErr.keyError := by
      simp [mapComparisons, he, errBind]
    have hf : findMatch [sp] lrow (r2 :: rrest) = Except.error PyErr.keyError := by
      simp [findMatch, hm, errBind]
    simp [runMatch, runAux, hf, errBind]
  · rfl

/-- C8 witness: a concrete mapping referencing a nonexistent left
column. -/
theorem missing_column_fails_during_scan_witness :
    runMatch [⟨"q", "b", "Text", false⟩] [[("a", Val.str "x")]] [[("b", Val.str "y")]]
        = Except.error PyErr.keyError
    ∧ runMatch [⟨"q", "b", "Text", false⟩] [] [[("b", Val.str "y")]] = Except.ok [] :=
  missing_column_fails_during_scan ⟨"q", "b", "Text", false⟩ [("a", Val.str "x")] []
    [("b", Val.str "y")] [] (by decide)

/-- C10: the normalizers are exception-free: the `clean_date` body cannot
raise at all (`errors="coerce"`), any exception in the `clean_number`
body is caught and becomes the missing marker, both functions only ever
return the missing marker or a well-typed value, and a missing result
makes the comparator answer `False` rather than aborting. -/
theorem normalizers_never_raise (v : Val) :
    exceptOk (clean_date_body v) = true
    ∧ (∀ e, clean_number_body v = Except.error e → clean_number v = Val.null)
    ∧ (clean_number v = Val.null ∨ ∃ q, clean_number v = Val.num q)
    ∧ (clean_date v = Val.null ∨ ∃ d, clean_date v = Val.date d)
    ∧ (clean_number v = Val.null → ∀ (w : Val) (ct : String) (fz : Bool),
        compareE (clean_number v) w ct fz = Except.ok false)
    ∧ (clean_date v = Val.null → ∀ (w : Val) (ct : String) (fz : Bool),
        compareE (clean_date v) w ct fz = Except.ok false) := by
  refine ⟨rfl, ?_, clean_number_shape v, clean_date_shape v, ?_, ?_⟩
  · intro e he
    simp [clean_number, he]
  · intro hn w ct fz
    rw [hn]
    exact compareE_null_left w ct fz
  · intro hd w ct fz
    rw [hd]
    exact compareE_null_left w ct fz

/-- C10 witness: a concrete unparseable number normalizes to the missing
marker (the caught `ValueError` path) and then compares as a non-match. -/
theorem normalizers_never_raise_witness :
    clean_number (Val.str "abc") = Val.null
    ∧ compareE (clean_number (Val.str "abc")) (Val.str "5") "Number" false
        = Except.ok false :=
  ⟨(normalizers_never_raise (Val.str "abc")).2.1 PyErr.valueError rfl,
   (normalizers_never_raise (Val.str "abc")).2.2.2.2.1 rfl (Val.str "5") "Number" false⟩

section FlattenLemmas

/-- Concatenation of strings concatenates their character data. -/
theorem strDataApp (s t : String) : (s ++ t).data = s.data ++ t.data := by
  cases s; cases t; rfl

/-- Strings with the same character data are equal. -/
theorem strExt {s t : String} (h : s.data = t.data) : s = t :=
  congrArg String.mk h

/-- Cancel equal-length leading parts of a string concatenation. -/
theorem strAppCancel (p q k l : String) (hlen : p.data.length = q.data.length)
    (h : p ++ k = q ++ l) : p = q ∧ k = l := by
  have hd : p.data ++ k.data = q.data ++ l.data := by
    rw [← strDataApp, ← strDataApp, h]
  obtain ⟨h1, h2⟩ := List.append_inj hd hlen
  exact ⟨strExt h1, strExt h2⟩

/-- The `Excel1_` prefixing is injective. -/
theorem exc1_app_inj {a b : String} (h : "Excel1_" ++ a = "Excel1_" ++ b) : a = b :=
  (strAppCancel _ _ _ _ rfl h).2

/-- An `Excel1_`-prefixed key never equals an `Excel2_`-prefixed one. -/
theorem exc1_ne_exc2_app (a b : String) : "Excel1_" ++ a ≠ "Excel2_" ++ b := by
  intro h
  exact absurd (strAppCancel _ _ _ _ (by decide) h).1 (by decide)

/-- An `Excel1_`-prefixed key never equals the matched-indicator key. -/
theorem exc1_app_ne_matched (a : String) : "Excel1_" ++ a ≠ "Matched" := by
  intro h
  have h2 : "Excel1_" ++ a = "Matched" ++ "" := h.trans (by decide)
  exact absurd (strAppCancel _ _ _ _ (by decide) h2).1 (by decide)

/-- An `Excel2_`-prefixed key never equals the matched-indicator key. -/
theorem exc2_app_ne_matched (a : String) : "Excel2_" ++ a ≠ "Matched" := by
  intro h
  have h2 : "Excel2_" ++ a = "Matched" ++ "" := h.trans (by decide)
  exact absurd (strAppCancel _ _ _ _ (by decide) h2).1 (by decide)

/-- An `Excel2_`-prefixed key never equals the index key. -/
theorem exc2_app_ne_idxkey (b : String) : "Excel2_" ++ b ≠ "Excel1_Index" := by
  intro h
  have h2 : "Excel2_" ++ b = "Excel1_" ++ "Index" := h.trans (by decide)
  exact absurd (strAppCancel _ _ _ _ (by decide) h2).1 (by decide)

/-- The only Left column whose prefixed key equals the index key is
`"Index"` itself. -/
theorem exc1_app_eq_idxkey {a : String} (h : "Excel1_" ++ a = "Excel1_Index") : a = "Index" :=
  exc1_app_inj (h.trans (by decide))

/-- Distinctness of all flat keys, given distinct Left columns avoiding
`"Index"` and distinct namespaced Right keys. -/
theorem nodup_parts (dataL : Row) (RK : List String)
    (hL : (dataL.map Prod.fst).Nodup)
    (hIdx : "Index" ∉ dataL.map Prod.fst)
    (hRK : RK.Nodup)
    (hform : ∀ x ∈ RK, ∃ b, x = "Excel2_" ++ b) :
    ("Excel1_Index" :: "Matched" ::
      (dataL.map (fun kv => "Excel1_" ++ kv.1) ++ RK)).Nodup := by
  have hmapped : dataL.map (fun kv => "Excel1_" ++ kv.1)
      = (dataL.map Prod.fst).map (fun s => "Excel1_" ++ s) := by
    rw [List.map_map]
    rfl
  have hLnodup : (dataL.map (fun kv => "Excel1_" ++ kv.1)).Nodup := by
    rw [hmapped]
    exact hL.map fun a b hab => exc1_app_inj hab
  have hdisj : List.Disjoint (dataL.map (fun kv => "Excel1_" ++ kv.1)) RK := by
    intro x hxL hxR
    obtain ⟨kv, hkv, hx⟩ := List.mem_map.mp hxL
    obtain ⟨b, hb⟩ := hform x hxR
    exact exc1_ne_exc2_app kv.1 b (hx.trans hb)
  refine List.nodup_cons.mpr ⟨?_, List.nodup_cons.mpr ⟨?_, ?_⟩⟩
  · simp only [List.mem_cons, List.mem_append]
    rintro (h | h | h)
    · exact absurd h (by decide)
    · obtain ⟨kv, hkv, hx⟩ := List.mem_map.mp h
      have : kv.1 = "Index" := exc1_app_eq_idxkey hx
      exact hIdx (this ▸ List.mem_map_of_mem Prod.fst hkv)
    · obtain ⟨b, hb⟩ := hform _ h
      exact exc2_app_ne_idxkey b hb.symm
  · simp only [List.mem_append]
    rintro (h | h)
    · obtain ⟨kv, hkv, hx⟩ := List.mem_map.mp h
      exact exc1_app_ne_matched kv.1 hx
    · obtain ⟨b, hb⟩ := hform _ h
      exact exc2_app_ne_matched b hb.symm
  · exact hLnodup.append hRK hdisj

/-- Writing a fresh key appends it at the end of the dict. -/
theorem dictInsert_fresh (d : List (String × Val)) (k : String) (v : Val)
    (h : ∀ kv ∈ d, kv.1 ≠ k) : dictInsert d k v = d ++ [(k, v)] := by
  induction d with
  | nil => rfl
  | cons kv rest ih =>
    obtain ⟨k1, v1⟩ := kv
    have hk : k1 ≠ k := h (k1, v1) (List.mem_cons_self _ _)
    simp [dictInsert, hk, ih fun p hp => h p (List.mem_cons_of_mem _ hp)]

/-- With pairwise-distinct keys, the sequence of dict writes reproduces
the write list verbatim: nothing is overwritten. -/
theorem foldl_dictInsert_eq (wr : List (String × Val)) :
    ∀ acc : List (String × Val), (acc.map Prod.fst ++ wr.map Prod.fst).Nodup →
      wr.foldl (fun d kv => dictInsert d kv.1 kv.2) acc = acc ++ wr := by
  induction wr with
  | nil => intro acc h; simp
  | cons kv rest ih =>
    intro acc h
    have hfresh : ∀ p ∈ acc, p.1 ≠ kv.1 := by
      intro p hp heq
      have hmem1 : kv.1 ∈ acc.map Prod.fst := heq ▸ List.mem_map_of_mem Prod.fst hp
      have hmem2 : kv.1 ∈ (kv :: rest).map Prod.fst := by simp
      exact (List.nodup_append.mp h).2.2 hmem1 hmem2
    have step : dictInsert acc kv.1 kv.2 = acc ++ [kv] := by
      simpa using dictInsert_fresh acc kv.1 kv.2 hfresh
    rw [List.foldl_cons, step]
    have hnd : ((acc ++ [kv]).map Prod.fst ++ rest.map Prod.fst).Nodup := by
      simpa [List.map_append, List.append_assoc] using h
    rw [ih (acc ++ [kv]) hnd]
    simp

end FlattenLemmas

/-- C9 counterexample: a Left column literally named `"Index"` collides
with the `leftRowIndex` field: both map to the flat key
`"Excel1_Index"`, and the later write overwrites the row index (here 5)
with the column's value (here 7). -/
theorem flatten_index_collision_counterexample :
    ¬ List.Nodup (writtenKeys
        { excel1Index := 5, excel1Data := [("Index", Val.num 7)],
          matched := "❌ No", excel2Match := none })
    ∧ flattenRec
        { excel1Index := 5, excel1Data := [("Index", Val.num 7)],
          matched := "❌ No", excel2Match := none }
      = [("Excel1_Index", Val.num 7), ("Matched", Val.str "❌ No")] :=
  ⟨by decide, by decide⟩

/-- C9 amended: flattening namespaces Left columns with `Excel1_` and
Right columns with `Excel2_`, which is collision-free and stable —
distinct source fields keep distinct flat keys and every write lands
verbatim — provided no Left column is literally named `"Index"` (and the
columns within each dataset are distinct, as the Dataset model
guarantees); a Left column named `"Index"` is the one collision with the
index field. -/
theorem flatten_keys_nodup_of_no_index_column (r : MatchRecord)
    (h1 : (r.excel1Data.map Prod.fst).Nodup)
    (h2 : "Index" ∉ r.excel1Data.map Prod.fst)
    (h3 : ∀ r2, r.excel2Match = some r2 → (r2.map Prod.fst).Nodup) :
    (writtenKeys r).Nodup ∧ flattenRec r = writes r := by
  have hkeys : (writtenKeys r).Nodup := by
    unfold writtenKeys writes
    rcases hE : r.excel2Match with _ | r2
    · simpa [List.map_append, List.map_map] using
        nodup_parts r.excel1Data [] h1 h2 List.nodup_nil (by simp)
    · by_cases hr2 : r2 = []
      · subst hr2
        simpa [List.map_append, List.map_map] using
          nodup_parts r.excel1Data [] h1 h2 List.nodup_nil (by simp)
      · have hRK : ((r2.map (fun kv => ("Excel2_" ++ kv.1, kv.2))).map Prod.fst).Nodup := by
          have : (r2.map (fun kv => ("Excel2_" ++ kv.1, kv.2))).map Prod.fst
              = (r2.map Prod.fst).map (fun s => "Excel2_" ++ s) := by
            rw [List.map_map, List.map_map]
            rfl
          rw [this]
          exact (h3 r2 hE).map fun a b hab => (strAppCancel _ _ _ _ rfl hab).2
        have hform : ∀ x ∈ (r2.map (fun kv => ("Excel2_" ++ kv.1, kv.2))).map Prod.fst,
            ∃ b, x = "Excel2_" ++ b := by
          intro x hx
          rw [List.map_map] at hx
          obtain ⟨kv, hkv, hxe⟩ := List.mem_map.mp hx
          exact ⟨kv.1, hxe.symm⟩
        have := nodup_parts r.excel1Data
          ((r2.map (fun kv => ("Excel2_" ++ kv.1, kv.2))).map Prod.fst) h1 h2 hRK hform
        simpa [hr2, List.map_append, List.map_map] using this
  refine ⟨hkeys, ?_⟩
  unfold flattenRec
  have := foldl_dictInsert_eq (writes r) [] (by simpa [writtenKeys] using hkeys)
  simpa using this

/-- C9 witness: a concrete record with an ordinary column name flattens
without any key collision. -/
theorem flatten_keys_nodup_of_no_index_column_witness :
    (writtenKeys { excel1Index := 0, excel1Data := [("id", Val.str "x")],
                   matched := "✅ Yes", excel2Match := some [("id", Val.str "x")] }).Nodup
    ∧ flattenRec { excel1Index := 0, excel1Data := [("id", Val.str "x")],
                   matched := "✅ Yes", excel2Match := some [("id", Val.str "x")] }
      = writes { excel1Index := 0, excel1Data := [("id", Val.str "x")],
                 matched := "✅ Yes", excel2Match := some [("id", Val.str "x")] } :=
  flatten_keys_nodup_of_no_index_column _ (by decide) (by decide)
    (by
      intro r2 h
      injection h with h2
      subst h2
      decide)
